import Mathlib

/-
  Shallow embedding of the elasticbud library (src/elasticbud/) and proofs
  about its behaviour.  Response trees, documents and configuration values
  are modelled by the `JSON` type; Python exceptions are modelled by the
  `PyErr` type; generators are modelled as the list of values they yield
  paired with the exception, if any, that terminates them.
-/

namespace Elasticbud

/-- JSON-like Python values: `null` is Python `None`, `obj` is a `dict`
(association list in insertion order), `arr` is a `list`. -/
inductive JSON where
  | null : JSON
  | bool : Bool → JSON
  | num : Int → JSON
  | str : String → JSON
  | arr : List JSON → JSON
  | obj : List (String × JSON) → JSON

mutual

/-- Decidable equality on `JSON` (hand-rolled: `deriving` does not handle
the nested `List` occurrences). -/
def decEqJSON : (a b : JSON) → Decidable (a = b)
  | .null, .null => isTrue rfl
  | .null, .bool _ => isFalse (fun h => nomatch h)
  | .null, .num _ => isFalse (fun h => nomatch h)
  | .null, .str _ => isFalse (fun h => nomatch h)
  | .null, .arr _ => isFalse (fun h => nomatch h)
  | .null, .obj _ => isFalse (fun h => nomatch h)
  | .bool _, .null => isFalse (fun h => nomatch h)
  | .bool x, .bool y =>
    if h : x = y then isTrue (by rw [h]) else isFalse (fun c => h (JSON.bool.inj c))
  | .bool _, .num _ => isFalse (fun h => nomatch h)
  | .bool _, .str _ => isFalse (fun h => nomatch h)
  | .bool _, .arr _ => isFalse (fun h => nomatch h)
  | .bool _, .obj _ => isFalse (fun h => nomatch h)
  | .num _, .null => isFalse (fun h => nomatch h)
  | .num _, .bool _ => isFalse (fun h => nomatch h)
  | .num x, .num y =>
    if h : x = y then isTrue (by rw [h]) else isFalse (fun c => h (JSON.num.inj c))
  | .num _, .str _ => isFalse (fun h => nomatch h)
  | .num _, .arr _ => isFalse (fun h => nomatch h)
  | .num _, .obj _ => isFalse (fun h => nomatch h)
  | .str _, .null => isFalse (fun h => nomatch h)
  | .str _, .bool _ => isFalse (fun h => nomatch h)
  | .str _, .num _ => isFalse (fun h => nomatch h)
  | .str x, .str y =>
    if h : x = y then isTrue (by rw [h]) else isFalse (fun c => h (JSON.str.inj c))
  | .str _, .arr _ => isFalse (fun h => nomatch h)
  | .str _, .obj _ => isFalse (fun h => nomatch h)
  | .arr _, .null => isFalse (fun h => nomatch h)
  | .arr _, .bool _ => isFalse (fun h => nomatch h)
  | .arr _, .num _ => isFalse (fun h => nomatch h)
  | .arr _, .str _ => isFalse (fun h => nomatch h)
  | .arr xs, .arr ys =>
    match decEqJSONList xs ys with
    | isTrue h => isTrue (by rw [h])
    | isFalse h => isFalse (fun c => h (JSON.arr.inj c))
  | .arr _, .obj _ => isFalse (fun h => nomatch h)
  | .obj _, .null => isFalse (fun h => nomatch h)
  | .obj _, .bool _ => isFalse (fun h => nomatch h)
  | .obj _, .num _ => isFalse (fun h => nomatch h)
  | .obj _, .str _ => isFalse (fun h => nomatch h)
  | .obj _, .arr _ => isFalse (fun h => nomatch h)
  | .obj xs, .obj ys =>
    match decEqJSONFields xs ys with
    | isTrue h => isTrue (by rw [h])
    | isFalse h => isFalse (fun c => h (JSON.obj.inj c))

/-- Decidable equality on lists of `JSON`. -/
def decEqJSONList : (xs ys : List JSON) → Decidable (xs = ys)
  | [], [] => isTrue rfl
  | [], _ :: _ => isFalse (fun h => nomatch h)
  | _ :: _, [] => isFalse (fun h => nomatch h)
  | x :: xs, y :: ys =>
    match decEqJSON x y with
    | isFalse h => isFalse (by intro c; injection c with c1 c2; exact h c1)
    | isTrue h1 =>
      match decEqJSONList xs ys with
      | isTrue h2 => isTrue (by rw [h1, h2])
      | isFalse h2 => isFalse (by intro c; injection c with c1 c2; exact h2 c2)

/-- Decidable equality on association lists of `JSON`. -/
def decEqJSONFields : (xs ys : List (String × JSON)) → Decidable (xs = ys)
  | [], [] => isTrue rfl
  | [], _ :: _ => isFalse (fun h => nomatch h)
  | _ :: _, [] => isFalse (fun h => nomatch h)
  | (k1, v1) :: xs, (k2, v2) :: ys =>
    if hk : k1 = k2 then
      match decEqJSON v1 v2 with
      | isFalse h => isFalse (by
          intro c; injection c with c1 c2; exact h (congrArg Prod.snd c1))
      | isTrue h1 =>
        match decEqJSONFields xs ys with
        | isTrue h2 => isTrue (by rw [hk, h1, h2])
        | isFalse h2 => isFalse (by intro c; injection c with c1 c2; exact h2 c2)
    else
      isFalse (by intro c; injection c with c1 c2; exact hk (congrArg Prod.fst c1))

end

instance : DecidableEq JSON := decEqJSON

instance {ε α : Type} [DecidableEq ε] [DecidableEq α] : DecidableEq (Except ε α) :=
  fun a b =>
    match a, b with
    | .ok x, .ok y =>
      if h : x = y then isTrue (by rw [h]) else isFalse (fun c => h (Except.ok.inj c))
    | .error x, .error y =>
      if h : x = y then isTrue (by rw [h]) else isFalse (fun c => h (Except.error.inj c))
    | .ok _, .error _ => isFalse (fun c => nomatch c)
    | .error _, .ok _ => isFalse (fun c => nomatch c)

/-- Python exceptions raised by the embedded code.  `recursedToKey` is
`RecursedToKeyError`, `asteriskNotAtList` is `AsteriskNotAtListError`
(both `KeyError` subclasses); `keyError` is a plain `KeyError` from a
`dict` subscript; `missingContinuationCursor` is the descriptive
`KeyError` raised by `get_response_value` when the first response has no
`after_key`; `outOfModeledPages` marks the mock search engine running out
of scripted responses (never reached under the theorems' hypotheses). -/
inductive PyErr where
  | recursedToKey : PyErr
  | asteriskNotAtList : PyErr
  | attributeError : PyErr
  | typeError : PyErr
  | indexError : PyErr
  | keyError : PyErr
  | missingContinuationCursor : PyErr
  | assertionError : PyErr
  | outOfModeledPages : PyErr
deriving DecidableEq

/-- First-match association-list lookup: Python `d[k]` / `k in d` on a dict. -/
def alookup {β : Type} (key : String) : List (String × β) → Option β
  | [] => none
  | (k, v) :: rest => if k = key then some v else alookup key rest

/-- Whether `needle` is a prefix of `hay` (character lists). -/
def prefixCheck : List Char → List Char → Bool
  | [], _ => true
  | _ :: _, [] => false
  | c :: cs, d :: ds => c = d && prefixCheck cs ds

/-- Whether `needle` occurs as a contiguous substring of `hay`: Python
`needle in hay` for strings. -/
def substrCheck (needle : List Char) : List Char → Bool
  | [] => needle.isEmpty
  | c :: hay => prefixCheck needle (c :: hay) || substrCheck needle hay

/-- Sequence the results of running a generator over several inputs:
concatenate yielded values, stopping at the first raised exception
(values yielded before it are kept). -/
def genConcat : List (List JSON × Option PyErr) → List JSON × Option PyErr
  | [] => ([], none)
  | (vs, some e) :: _ => (vs, some e)
  | (vs, none) :: rest =>
    let r := genConcat rest
    (vs ++ r.1, r.2)

/-- `recurse_splat_key(data, value_keys)` from src/elasticbud/utils.py, as
the pair (values yielded, terminating exception if any).  Python details
modelled faithfully: `*` on a non-list first evaluates `data.keys()` while
building the error message, so a non-dict raises `AttributeError` instead
of `AsteriskNotAtListError`; a literal key on a list or string uses Python
`in` (element membership / substring) and then fails the subscript with
`TypeError` when the membership test passes; a literal key on a scalar
raises `TypeError` from `in`; an empty key list raises `IndexError`. -/
def recurse_splat_key (data : JSON) : List String → List JSON × Option PyErr
  | [] => ([], some .indexError)
  | key :: rest =>
    if key = "*" then
      match data with
      | .arr elems =>
        if rest = [] then (elems, none)
        else genConcat (elems.map (fun d => recurse_splat_key d rest))
      | .obj _ => ([], some .asteriskNotAtList)
      | _ => ([], some .attributeError)
    else
      match data with
      | .obj fields =>
        match alookup key fields with
        | none => ([], some .recursedToKey)
        | some v => if rest = [] then ([v], none) else recurse_splat_key v rest
      | .arr elems =>
        ([], some (if JSON.str key ∈ elems then .typeError else .recursedToKey))
      | .str s =>
        ([], some (if substrCheck key.toList s.toList then .typeError else .recursedToKey))
      | _ => ([], some .typeError)

/-- First exception among a list of generator outcomes, in order. -/
def firstErr : List (Option PyErr) → Option PyErr
  | [] => none
  | some e :: _ => some e
  | none :: rest => firstErr rest

/-- Modelled from the spec of the Path Extractor's error policy (amended as
the code forces): classifies, by the kind of node each segment is applied
to, the first fault met by the traversal, without collecting values.  A
wildcard on a mapping is `asteriskNotAtList`, on any other non-sequence
`attributeError`; a literal on a mapping lacking the key is
`recursedToKey`, on a sequence or string it is `recursedToKey` when the
key is absent (as element / substring) and `typeError` when present, and
on a scalar `typeError`; a traversal meeting no fault reports no error. -/
def splatFault (data : JSON) : List String → Option PyErr
  | [] => some .indexError
  | key :: rest =>
    if key = "*" then
      match data with
      | .arr elems =>
        if rest = [] then none
        else firstErr (elems.map (fun d => splatFault d rest))
      | .obj _ => some .asteriskNotAtList
      | _ => some .attributeError
    else
      match data with
      | .obj fields =>
        match alookup key fields with
        | some v => if rest = [] then none else splatFault v rest
        | none => some .recursedToKey
      | .arr elems =>
        if JSON.str key ∈ elems then some .typeError else some .recursedToKey
      | .str s =>
        if substrCheck key.toList s.toList then some .typeError else some .recursedToKey
      | _ => some .typeError

/-! ### Heap-level model of the extractor

To state that `recurse_splat_key` never mutates the input tree we run the
same algorithm over an explicit heap of nodes addressed by `Nat`, where
Python's local rebinding `data = data[value_key]` is a pointer move and
yielded values are references.  Every heap access is threaded, so the
final heap records any store the code would have performed. -/

/-- A heap node: structured nodes hold addresses of their children. -/
inductive HNode where
  | null : HNode
  | bool : Bool → HNode
  | num : Int → HNode
  | str : String → HNode
  | arr : List Nat → HNode
  | obj : List (String × Nat) → HNode
deriving DecidableEq

/-- A heap: node at address `a` is entry `a` of the list. -/
abbrev Heap := List HNode

/-- One iteration of the heap-level extractor's wildcard loop: thread the
heap through the recursive call on the next element, accumulating yielded
addresses, unless an exception has already been raised. -/
def rskHStep (g : Heap → Nat → (List Nat × Option PyErr) × Heap)
    (st : (List Nat × Option PyErr) × Heap) (a2 : Nat) :
    (List Nat × Option PyErr) × Heap :=
  match st with
  | ((vs, some e), h2) => ((vs, some e), h2)
  | ((vs, none), h2) =>
    let r := g h2 a2
    ((vs ++ r.1.1, r.1.2), r.2)

/-- `recurse_splat_key` over an explicit heap: takes the path, the heap and
the address of the current node; returns (addresses of yielded values,
terminating exception if any) and the heap after the call. -/
def rskH : List String → Heap → Nat → (List Nat × Option PyErr) × Heap
  | [], h, _ => (([], some .indexError), h)
  | key :: rest, h, a =>
    match h[a]? with
    | none => (([], some .typeError), h)
    | some node =>
      if key = "*" then
        match node with
        | .arr elems =>
          if rest = [] then ((elems, none), h)
          else
            elems.foldl (rskHStep (fun h2 a2 => rskH rest h2 a2)) (([], none), h)
        | .obj _ => (([], some .asteriskNotAtList), h)
        | _ => (([], some .attributeError), h)
      else
        match node with
        | .obj fields =>
          match alookup key fields with
          | none => (([], some .recursedToKey), h)
          | some a2 => if rest = [] then (([a2], none), h) else rskH rest h a2
        | .arr elems =>
          (([], some (if elems.any (fun a2 => h[a2]? == some (.str key))
              then .typeError else .recursedToKey)), h)
        | .str s =>
          (([], some (if substrCheck key.toList s.toList
              then .typeError else .recursedToKey)), h)
        | _ => (([], some .typeError), h)

/-- The node at address `a` of heap `h` decodes to the tree `t`. -/
inductive Decodes (h : Heap) : Nat → JSON → Prop
  | null {a : Nat} : h[a]? = some .null → Decodes h a .null
  | bool {a : Nat} {b : Bool} : h[a]? = some (.bool b) → Decodes h a (.bool b)
  | num {a : Nat} {n : Int} : h[a]? = some (.num n) → Decodes h a (.num n)
  | str {a : Nat} {s : String} : h[a]? = some (.str s) → Decodes h a (.str s)
  | arr {a : Nat} {addrs : List Nat} {ts : List JSON} :
      h[a]? = some (.arr addrs) → List.Forall₂ (Decodes h) addrs ts →
      Decodes h a (.arr ts)
  | obj {a : Nat} {fields : List (String × Nat)} {kts : List (String × JSON)} :
      h[a]? = some (.obj fields) →
      fields.map Prod.fst = kts.map Prod.fst →
      List.Forall₂ (Decodes h) (fields.map Prod.snd) (kts.map Prod.snd) →
      Decodes h a (.obj kts)

/-! ### Composite-aggregation pagination (`get_response_value`)

The search engine is modelled as the finite list of responses it would
return to successive `search` calls; the composite branch of
`get_response_value` consumes them in order. -/

/-- Python subscript `v[key]` for a string key: `KeyError` on a dict
missing the key, `TypeError` on anything that is not a dict. -/
def getItem (v : JSON) (key : String) : Except PyErr JSON :=
  match v with
  | .obj fields =>
    match alookup key fields with
    | some w => .ok w
    | none => .error .keyError
  | _ => .error .typeError

/-- `resp["aggregations"][name]["after_key"]`. -/
def afterKey (resp : JSON) (name : String) : Except PyErr JSON := do
  let aggs ← getItem resp "aggregations"
  let agg ← getItem aggs name
  getItem agg "after_key"

/-- Whether an `Except` is a success. -/
def isOkE {ε α : Type} : Except ε α → Bool
  | .ok _ => true
  | .error _ => false

/-- Outcome of the composite branch of `get_response_value`: the values
yielded, the exception terminating the generator if any, and the number of
`search` requests issued. -/
structure GrvResult where
  values : List JSON
  err : Option PyErr
  searches : Nat
deriving DecidableEq

/-- The `while` loop of `get_response_value`'s composite branch, started
on response `resp` with `future` the responses the engine will return to
subsequent `search` calls.  Each iteration extracts with
`recurse_splat_key`; an empty extraction ends the loop, the special shape
`[[]]` breaks out of it, otherwise the page's values are yielded, the
page's `after_key` is read with a bare subscript chain (a plain `KeyError`
if absent) and the next page is fetched. -/
def grvLoop (agg : String) (keys : List String) : List JSON → JSON → GrvResult
  | future, resp =>
    match recurse_splat_key resp keys with
    | (_, some e) => ⟨[], some e, 0⟩
    | (ext, none) =>
      if ext = [] then ⟨[], none, 0⟩
      else if ext = [JSON.arr []] then ⟨[], none, 0⟩
      else
        match afterKey resp agg with
        | .error e => ⟨ext, some e, 0⟩
        | .ok _ =>
          match future with
          | [] => ⟨ext, some .outOfModeledPages, 1⟩
          | p :: ps =>
            let r := grvLoop agg keys ps p
            ⟨ext ++ r.values, r.err, r.searches + 1⟩

/-- The composite branch of `get_response_value` (`composite_aggregation_name`
given): issues the initial `search`, checks the first response's
`after_key` — wrapping a `KeyError` into the descriptive
`missingContinuationCursor` failure — and runs the pagination loop. -/
def get_response_value_composite (agg : String) (keys : List String)
    (pages : List JSON) : GrvResult :=
  match pages with
  | [] => ⟨[], some .outOfModeledPages, 0⟩
  | p :: ps =>
    match afterKey p agg with
    | .error .keyError => ⟨[], some .missingContinuationCursor, 1⟩
    | .error e => ⟨[], some e, 1⟩
    | .ok _ =>
      let r := grvLoop agg keys ps p
      ⟨r.values, r.err, r.searches + 1⟩

/-- A page on which the pagination loop keeps going: extraction succeeds,
is non-empty, is not the special shape `[[]]`, and the page carries an
`after_key`. -/
def goodPage (agg : String) (keys : List String) (d : JSON) : Prop :=
  (recurse_splat_key d keys).2 = none ∧
  (recurse_splat_key d keys).1 ≠ [] ∧
  (recurse_splat_key d keys).1 ≠ [JSON.arr []] ∧
  isOkE (afterKey d agg) = true

instance (agg : String) (keys : List String) (d : JSON) :
    Decidable (goodPage agg keys d) := by
  unfold goodPage; infer_instance

/-- A page on which the pagination loop terminates: extraction succeeds
and is empty or the special shape `[[]]`. -/
def stopPage (keys : List String) (d : JSON) : Prop :=
  (recurse_splat_key d keys).2 = none ∧
  ((recurse_splat_key d keys).1 = [] ∨ (recurse_splat_key d keys).1 = [JSON.arr []])

instance (keys : List String) (d : JSON) : Decidable (stopPage keys d) := by
  unfold stopPage; infer_instance

/-! ### Idempotent document gate (`document_exists`) -/

/-- Outcome of `document_exists`: its boolean return value, whether a
`search` request was issued, and the ids passed to `delete` in order. -/
structure ExistsResult where
  result : Bool
  searched : Bool
  deleted : List String
deriving DecidableEq

/-- `document_exists(client, doc, index, identity_fields, delete_if_exists)`.
The engine is an oracle: `searchHits = none` models a `NotFoundError`
(missing index), `some hits` the ids of `resp["hits"]["hits"]` in order.
Building the filter query reads `doc[field]` for each identity field and
returns `False` on the first `KeyError`; with `delete_if_exists` set and a
non-empty hit list, the body of the `for hit in hits` loop deletes the hit
and then immediately executes its `return False`, so only the first hit is
ever deleted. -/
def document_exists (doc : List (String × JSON)) (identity_fields : List String)
    (searchHits : Option (List String)) (delete_if_exists : Bool) : ExistsResult :=
  if identity_fields.all (fun f => (alookup f doc).isSome) then
    match searchHits with
    | none => ⟨false, true, []⟩
    | some hits =>
      if hits.length > 0 then
        if delete_if_exists then
          match hits with
          | [] => ⟨false, true, []⟩
          | h :: _ => ⟨false, true, [h]⟩
        else ⟨true, true, []⟩
      else ⟨false, true, []⟩
  else ⟨false, false, []⟩

/-! ### Bulk admission (`doc_gen`) -/

/-- A document: a Python dict in insertion order. -/
abbrev Doc := List (String × JSON)

/-- Python `d.update(key=v)`: replace the value at `key` in place if
present, else append the binding. -/
def updateKey (key : String) (v : JSON) : Doc → Doc
  | [] => [(key, v)]
  | (k, w) :: rest => if k = key then (k, v) :: rest else (k, w) :: updateKey key v rest

/-- The document value stored at address `a`. -/
def fetch (store : List Doc) (a : Nat) : Doc := store.getD a []

/-- A document passes `doc_gen`'s gate when identity checking is off or
the existence oracle reports no duplicate. -/
def admitGate (useIdentity : Bool) (existsCheck : Doc → Bool) (d : Doc) : Bool :=
  !(useIdentity && existsCheck d)

/-- `doc_gen` over an explicit store of documents.  Input documents are
addresses into the store; each iteration allocates the copy `doc =
dict(doc)`, consults the existence gate on the copy's value (skipping the
document when it reports a duplicate), and otherwise tags the copy in
place with `doc.update(_index=index)` and yields its address.
`useIdentity` is `identity_fields is not None`; `existsCheck` is the
`document_exists` oracle. -/
def doc_genS (index : String) (useIdentity : Bool) (existsCheck : Doc → Bool) :
    List Doc → List Nat → List Nat × List Doc
  | store, [] => ([], store)
  | store, a :: rest =>
    let d := fetch store a
    let fresh := store.length
    let store1 := store ++ [d]
    if useIdentity && existsCheck d then
      doc_genS index useIdentity existsCheck store1 rest
    else
      let store2 := store1.set fresh (updateKey "_index" (.str index) d)
      let r := doc_genS index useIdentity existsCheck store2 rest
      (fresh :: r.1, r.2)

/-! ### Client construction (src/elasticbud/client.py) -/

/-- The process environment at module-import time (Python evaluates the
`os.getenv` default arguments once, when the function is defined). -/
structure Env where
  fqdn : Option String
  port : Option String
  username : Option String
  password : Option String
  timeout : Option String

/-- The arguments the `Elasticsearch` / `AsyncElasticsearch` constructor
is invoked with. -/
structure ESClient where
  host : JSON
  port : JSON
  timeout : JSON
  authUser : JSON
  authPass : JSON
  useSSL : Bool
  verifyCerts : Bool
deriving DecidableEq

/-- `os.getenv(name)`: the variable's value, or `None`. -/
def envStr : Option String → JSON
  | none => .null
  | some s => .str s

/-- `os.getenv(name, fallback)`: the variable's value, or `fallback`. -/
def envStrD (fallback : JSON) : Option String → JSON
  | none => fallback
  | some s => .str s

/-- `get_elasticsearch_client`: each parameter defaults to its
environment-sourced value; fqdn, port, username and password are asserted
non-`None`; the client is built with `use_ssl=True`, `verify_certs=True`
and — in this synchronous variant — the literal `timeout=300`, the
`elasticsearch_timeout` argument being ignored. -/
def get_elasticsearch_client (e : Env)
    (fqdn port user pass timeoutArg : Option JSON) : Except PyErr ESClient :=
  let f := fqdn.getD (envStr e.fqdn)
  let p := port.getD (envStrD (.num 443) e.port)
  let u := user.getD (envStr e.username)
  let pw := pass.getD (envStr e.password)
  let _t := timeoutArg.getD (envStrD (.num 300) e.timeout)
  if f = .null ∨ p = .null ∨ u = .null ∨ pw = .null then .error .assertionError
  else .ok ⟨f, p, .num 300, u, pw, true, true⟩

/-- `get_async_elasticsearch_client`: identical to the synchronous variant
except that the constructor receives `timeout=elasticsearch_timeout`. -/
def get_async_elasticsearch_client (e : Env)
    (fqdn port user pass timeoutArg : Option JSON) : Except PyErr ESClient :=
  let f := fqdn.getD (envStr e.fqdn)
  let p := port.getD (envStrD (.num 443) e.port)
  let u := user.getD (envStr e.username)
  let pw := pass.getD (envStr e.password)
  let t := timeoutArg.getD (envStrD (.num 300) e.timeout)
  if f = .null ∨ p = .null ∨ u = .null ∨ pw = .null then .error .assertionError
  else .ok ⟨f, p, t, u, pw, true, true⟩

end Elasticbud

/-! ## Theorems -/

namespace Elasticbud

/-- Running a generator over several inputs none of which raises
concatenates the yielded values. -/
theorem genConcat_noErr (l : List (List JSON × Option PyErr))
    (h : ∀ x ∈ l, x.2 = none) :
    genConcat l = ((l.map Prod.fst).flatten, none) := by
  induction l with
  | nil => rfl
  | cons x xs ih =>
    obtain ⟨vs, e⟩ := x
    have hx : e = none := h (vs, e) (by simp)
    subst hx
    simp [genConcat, ih (fun y hy => h y (List.mem_cons_of_mem _ hy))]

/-- The exception ending a sequenced generator run is the first exception
of the individual runs. -/
theorem genConcat_snd (l : List (List JSON × Option PyErr)) :
    (genConcat l).2 = firstErr (l.map Prod.snd) := by
  induction l with
  | nil => rfl
  | cons x xs ih =>
    obtain ⟨vs, e⟩ := x
    cases e with
    | none => simp [genConcat, firstErr, ih]
    | some e2 => simp [genConcat, firstErr]

/-- C4: a terminal wildcard over a list yields exactly its elements as-is
in input order; a non-terminal wildcard over a list whose elements all
extract without error yields the per-element extractions flattened in
(outer, inner) order, so the total count is the sum of the per-element
counts. -/
theorem recurse_splat_key_wildcard_yields (elems : List JSON) (rest : List String) :
    recurse_splat_key (.arr elems) ["*"] = (elems, none) ∧
    (rest ≠ [] → (∀ d ∈ elems, (recurse_splat_key d rest).2 = none) →
      recurse_splat_key (.arr elems) ("*" :: rest)
        = ((elems.map (fun d => (recurse_splat_key d rest).1)).flatten, none) ∧
      (recurse_splat_key (.arr elems) ("*" :: rest)).1.length
        = (elems.map (fun d => (recurse_splat_key d rest).1.length)).sum) := by
  constructor
  · simp [recurse_splat_key]
  · intro hne hok
    have h1 : recurse_splat_key (.arr elems) ("*" :: rest)
        = genConcat (elems.map (fun d => recurse_splat_key d rest)) := by
      simp [recurse_splat_key, hne]
    have h2 : genConcat (elems.map (fun d => recurse_splat_key d rest))
        = ((elems.map (fun d => (recurse_splat_key d rest).1)).flatten, none) := by
      rw [genConcat_noErr]
      · rw [List.map_map]
        rfl
      · intro x hx
        obtain ⟨d, hd, rfl⟩ := List.mem_map.mp hx
        exact hok d hd
    rw [h1, h2]
    refine ⟨rfl, ?_⟩
    simp only [List.length_flatten, List.map_map]
    rfl

/-- C4 witness: a two-element list, terminal wildcard and a non-terminal
wildcard continuing into the `b` field of each element. -/
theorem recurse_splat_key_wildcard_yields_witness :
    recurse_splat_key (.arr [.obj [("b", JSON.num 1)], .obj [("b", JSON.num 2)]]) ["*"]
      = ([.obj [("b", JSON.num 1)], .obj [("b", JSON.num 2)]], none) ∧
    (recurse_splat_key (.arr [.obj [("b", JSON.num 1)], .obj [("b", JSON.num 2)]])
        ("*" :: ["b"]) = ([JSON.num 1, JSON.num 2], none) ∧
      (recurse_splat_key (.arr [.obj [("b", JSON.num 1)], .obj [("b", JSON.num 2)]])
          ("*" :: ["b"])).1.length = 2) :=
  ⟨(recurse_splat_key_wildcard_yields
      [.obj [("b", JSON.num 1)], .obj [("b", JSON.num 2)]] ["b"]).1,
   (recurse_splat_key_wildcard_yields
      [.obj [("b", JSON.num 1)], .obj [("b", JSON.num 2)]] ["b"]).2
     (by decide) (by decide)⟩

/-- C3 counterexample: a wildcard applied to the scalar `5` raises
`AttributeError` (from `data.keys()` evaluated while building the error
message), not the `AsteriskNotAtListError` / `WildcardOnNonSequence`
failure the claim requires for every non-sequence node. -/
theorem recurse_splat_key_wildcard_scalar_attribute_error :
    recurse_splat_key (JSON.num 5) ["*"] = ([], some .attributeError) ∧
    PyErr.attributeError ≠ PyErr.asteriskNotAtList := by
  decide

/-- C3 (amended): the extractor's error outcome is exactly the
classification, by node kind, of the first fault met along its traversal:
`recursedToKey` (KeyNotFound) for a literal on a mapping lacking the key
or on a sequence/string not containing it, `asteriskNotAtList`
(WildcardOnNonSequence) for a wildcard on a mapping, `attributeError` for
a wildcard on any other non-sequence, `typeError` for a literal on a
scalar or on a sequence/string containing the key, and no error — an
empty yield is not an error — when no fault is reached. -/
theorem recurse_splat_key_error_classification (data : JSON) (keys : List String) :
    (recurse_splat_key data keys).2 = splatFault data keys := by
  induction keys generalizing data with
  | nil => rfl
  | cons key rest ih =>
    by_cases hk : key = "*"
    · subst hk
      cases data with
      | arr elems =>
        by_cases hr : rest = []
        · subst hr; simp [recurse_splat_key, splatFault]
        · simp only [recurse_splat_key, splatFault, hr, genConcat_snd, List.map_map,
            if_neg hr, reduceIte]
          congr 1
          exact List.map_congr_left (fun d _ => ih d)
      | obj fields => simp [recurse_splat_key, splatFault]
      | null => simp [recurse_splat_key, splatFault]
      | bool b => simp [recurse_splat_key, splatFault]
      | num n => simp [recurse_splat_key, splatFault]
      | str s => simp [recurse_splat_key, splatFault]
    · cases data with
      | obj fields =>
        cases halo : alookup key fields with
        | none => simp [recurse_splat_key, splatFault, hk, halo]
        | some v =>
          by_cases hr : rest = []
          · subst hr; simp [recurse_splat_key, splatFault, hk, halo]
          · simp [recurse_splat_key, splatFault, hk, halo, hr, ih]
      | arr elems => simp [recurse_splat_key, splatFault, hk, apply_ite]
      | str s => simp [recurse_splat_key, splatFault, hk, apply_ite]
      | null => simp [recurse_splat_key, splatFault, hk]
      | bool b => simp [recurse_splat_key, splatFault, hk]
      | num n => simp [recurse_splat_key, splatFault, hk]

/-- C1: with `delete_if_exists` set and two hits matching the identity
query, `document_exists` deletes only the first hit and returns `false`:
the `return False` sits inside the `for hit in hits` loop, so the second
matching hit is never deleted, contradicting the documented
delete-all-matches behaviour. -/
theorem document_exists_deletes_first_hit_only :
    document_exists [("a", JSON.num 1)] ["a"] (some ["id1", "id2"]) true
      = ⟨false, true, ["id1"]⟩ ∧
    "id2" ∉ (document_exists [("a", JSON.num 1)] ["a"] (some ["id1", "id2"]) true).deleted := by
  decide

/-- C7: a document missing at least one identity field is reported
non-duplicate (`false`) without any search request being issued. -/
theorem document_exists_missing_field_admits
    (doc : Doc) (identity_fields : List String)
    (searchHits : Option (List String)) (delete_if_exists : Bool)
    (hf : ∃ f ∈ identity_fields, alookup f doc = none) :
    document_exists doc identity_fields searchHits delete_if_exists
      = ⟨false, false, []⟩ := by
  obtain ⟨f, hmem, hnone⟩ := hf
  have hall : identity_fields.all (fun g => (alookup g doc).isSome) = false := by
    rw [List.all_eq_false]
    exact ⟨f, hmem, by simp [hnone]⟩
  simp [document_exists, hall]

/-- C7 witness: a document with no fields checked against one identity
field. -/
theorem document_exists_missing_field_admits_witness :
    document_exists [] ["a"] (some ["id1"]) true = ⟨false, false, []⟩ :=
  document_exists_missing_field_admits [] ["a"] (some ["id1"]) true
    ⟨"a", by decide, by decide⟩

/-- C6: when the first response carries no
`aggregations[name]["after_key"]` entry, the composite branch fails with
the descriptive `missingContinuationCursor` error, having yielded nothing
and issued exactly the one initial search. -/
theorem get_response_value_composite_missing_first_cursor
    (agg : String) (keys : List String) (p : JSON) (ps : List JSON)
    (h : afterKey p agg = .error .keyError) :
    get_response_value_composite agg keys (p :: ps)
      = ⟨[], some .missingContinuationCursor, 1⟩ := by
  simp [get_response_value_composite, h]

/-- C6 witness: a first response with an empty aggregations object. -/
theorem get_response_value_composite_missing_first_cursor_witness :
    get_response_value_composite "c" ["x"] [JSON.obj []]
      = ⟨[], some .missingContinuationCursor, 1⟩ :=
  get_response_value_composite_missing_first_cursor "c" ["x"] (JSON.obj []) []
    (by decide)

/-- C9 counterexample: the synchronous client constructed with an explicit
`elasticsearch_timeout=7` is built with `timeout=300`, not 7 — the
argument is ignored by `get_elasticsearch_client`. -/
theorem get_elasticsearch_client_timeout_hardcoded :
    get_elasticsearch_client ⟨some "h", none, some "u", some "p", none⟩
        none none none none (some (JSON.num 7))
      = .ok ⟨.str "h", .num 443, .num 300, .str "u", .str "p", true, true⟩
    ∧ JSON.num 300 ≠ JSON.num 7 := by
  decide

/-- C9 (amended): both constructors always enable TLS and certificate
verification and take host, port, username and password from the explicit
argument when given, else from the environment-sourced default; the async
client's timeout follows the same rule, but the synchronous client is
always built with timeout 300 regardless of the timeout argument. -/
theorem client_construction_sources
    (e : Env) (fqdn port user pass timeoutArg : Option JSON) (cfg cfg2 : ESClient) :
    (get_elasticsearch_client e fqdn port user pass timeoutArg = .ok cfg →
      cfg.useSSL = true ∧ cfg.verifyCerts = true ∧
      cfg.host = fqdn.getD (envStr e.fqdn) ∧
      cfg.port = port.getD (envStrD (.num 443) e.port) ∧
      cfg.authUser = user.getD (envStr e.username) ∧
      cfg.authPass = pass.getD (envStr e.password) ∧
      cfg.timeout = .num 300) ∧
    (get_async_elasticsearch_client e fqdn port user pass timeoutArg = .ok cfg2 →
      cfg2.useSSL = true ∧ cfg2.verifyCerts = true ∧
      cfg2.host = fqdn.getD (envStr e.fqdn) ∧
      cfg2.port = port.getD (envStrD (.num 443) e.port) ∧
      cfg2.authUser = user.getD (envStr e.username) ∧
      cfg2.authPass = pass.getD (envStr e.password) ∧
      cfg2.timeout = timeoutArg.getD (envStrD (.num 300) e.timeout)) := by
  constructor
  · intro h
    simp only [get_elasticsearch_client] at h
    split at h
    · simp at h
    · injection h with h
      subst h
      exact ⟨rfl, rfl, rfl, rfl, rfl, rfl, rfl⟩
  · intro h
    simp only [get_async_elasticsearch_client] at h
    split at h
    · simp at h
    · injection h with h
      subst h
      exact ⟨rfl, rfl, rfl, rfl, rfl, rfl, rfl⟩

/-- C9 amended-claim witness: a fully set environment with an explicit
timeout argument of 7; the sync client is built with timeout 300, the
async client with timeout 7. -/
theorem client_construction_sources_witness :
    ((⟨.str "h", .num 443, .num 300, .str "u", .str "p", true, true⟩ : ESClient).useSSL = true ∧
     (⟨.str "h", .num 443, .num 300, .str "u", .str "p", true, true⟩ : ESClient).verifyCerts = true ∧
     (⟨.str "h", .num 443, .num 300, .str "u", .str "p", true, true⟩ : ESClient).host = .str "h" ∧
     (⟨.str "h", .num 443, .num 300, .str "u", .str "p", true, true⟩ : ESClient).port = .num 443 ∧
     (⟨.str "h", .num 443, .num 300, .str "u", .str "p", true, true⟩ : ESClient).authUser = .str "u" ∧
     (⟨.str "h", .num 443, .num 300, .str "u", .str "p", true, true⟩ : ESClient).authPass = .str "p" ∧
     (⟨.str "h", .num 443, .num 300, .str "u", .str "p", true, true⟩ : ESClient).timeout = .num 300) ∧
    ((⟨.str "h", .num 443, .num 7, .str "u", .str "p", true, true⟩ : ESClient).useSSL = true ∧
     (⟨.str "h", .num 443, .num 7, .str "u", .str "p", true, true⟩ : ESClient).verifyCerts = true ∧
     (⟨.str "h", .num 443, .num 7, .str "u", .str "p", true, true⟩ : ESClient).host = .str "h" ∧
     (⟨.str "h", .num 443, .num 7, .str "u", .str "p", true, true⟩ : ESClient).port = .num 443 ∧
     (⟨.str "h", .num 443, .num 7, .str "u", .str "p", true, true⟩ : ESClient).authUser = .str "u" ∧
     (⟨.str "h", .num 443, .num 7, .str "u", .str "p", true, true⟩ : ESClient).authPass = .str "p" ∧
     (⟨.str "h", .num 443, .num 7, .str "u", .str "p", true, true⟩ : ESClient).timeout = .num 7) :=
  ⟨(client_construction_sources ⟨some "h", none, some "u", some "p", none⟩
      none none none none (some (.num 7))
      ⟨.str "h", .num 443, .num 300, .str "u", .str "p", true, true⟩
      ⟨.str "h", .num 443, .num 7, .str "u", .str "p", true, true⟩).1 (by decide),
   (client_construction_sources ⟨some "h", none, some "u", some "p", none⟩
      none none none none (some (.num 7))
      ⟨.str "h", .num 443, .num 300, .str "u", .str "p", true, true⟩
      ⟨.str "h", .num 443, .num 7, .str "u", .str "p", true, true⟩).2 (by decide)⟩

/-- An `Except` is `isOkE` exactly when it is an `ok`. -/
theorem isOkE_iff {ε α : Type} (r : Except ε α) : isOkE r = true ↔ ∃ v, r = .ok v := by
  cases r <;> simp [isOkE]

/-- The pagination loop started on a stopping page (extraction empty or
`[[]]`) yields nothing, raises nothing, and issues no search. -/
theorem grvLoop_stop (agg : String) (keys : List String) (future : List JSON) (z : JSON)
    (h : stopPage keys z) : grvLoop agg keys future z = ⟨[], none, 0⟩ := by
  obtain ⟨h1, h2⟩ := h
  rcases hext : recurse_splat_key z keys with ⟨ext, err⟩
  simp only [hext] at h1 h2
  subst h1
  rcases h2 with h2 | h2 <;> subst h2 <;> simp [grvLoop, hext]

/-- The pagination loop started on a page with values but no `after_key`
yields the page's values and then raises the subscript's error, issuing
no further search. -/
theorem grvLoop_bad (agg : String) (keys : List String) (future : List JSON)
    (bad : JSON) (ext : List JSON) (e : PyErr)
    (hr : recurse_splat_key bad keys = (ext, none))
    (h2 : ext ≠ []) (h3 : ext ≠ [JSON.arr []])
    (h4 : afterKey bad agg = .error e) :
    grvLoop agg keys future bad = ⟨ext, some e, 0⟩ := by
  rw [grvLoop.eq_def]
  simp [hr, h2, h3, h4]

/-- One iteration of the pagination loop on a non-stopping page yields the
page's values, issues one search, and continues on the fetched page. -/
theorem grvLoop_good_step (agg : String) (keys : List String) (p : JSON)
    (ps : List JSON) (d : JSON) (ext : List JSON) (v : JSON)
    (hr : recurse_splat_key d keys = (ext, none))
    (h2 : ext ≠ []) (h3 : ext ≠ [JSON.arr []])
    (h4 : afterKey d agg = .ok v) :
    grvLoop agg keys (p :: ps) d =
      ⟨ext ++ (grvLoop agg keys ps p).values, (grvLoop agg keys ps p).err,
       (grvLoop agg keys ps p).searches + 1⟩ := by
  rw [grvLoop.eq_def]
  simp [hr, h2, h3, h4]

/-- Running the pagination loop from a non-stopping page through a block
of further non-stopping pages concatenates their extractions in page
order and defers to the page after the block. -/
theorem grvLoop_chain (agg : String) (keys : List String) :
    ∀ (mid : List JSON) (d z : JSON) (rest : List JSON),
      goodPage agg keys d → (∀ x ∈ mid, goodPage agg keys x) →
      grvLoop agg keys (mid ++ z :: rest) d =
        ⟨(recurse_splat_key d keys).1 ++
            ((mid.map (fun x => (recurse_splat_key x keys).1)).flatten
              ++ (grvLoop agg keys rest z).values),
         (grvLoop agg keys rest z).err,
         (grvLoop agg keys rest z).searches + mid.length + 1⟩ := by
  intro mid
  induction mid with
  | nil =>
    intro d z rest hd _
    obtain ⟨h1, h2, h3, h4⟩ := hd
    rcases (isOkE_iff _).mp h4 with ⟨v, hv⟩
    rcases hext : recurse_splat_key d keys with ⟨ext, err⟩
    simp only [hext] at h1 h2 h3
    subst h1
    rw [List.nil_append]
    rw [grvLoop_good_step agg keys z rest d ext v hext h2 h3 hv]
    simp [hext]
  | cons m mid2 ih =>
    intro d z rest hd hmid
    obtain ⟨h1, h2, h3, h4⟩ := hd
    rcases (isOkE_iff _).mp h4 with ⟨v, hv⟩
    rcases hext : recurse_splat_key d keys with ⟨ext, err⟩
    simp only [hext] at h1 h2 h3
    subst h1
    have hm := hmid m (by simp)
    have hrest : ∀ x ∈ mid2, goodPage agg keys x := fun x hx => hmid x (by simp [hx])
    rw [List.cons_append]
    rw [grvLoop_good_step agg keys m (mid2 ++ z :: rest) d ext v hext h2 h3 hv]
    rw [ih m z rest hm hrest]
    simp only [hext, List.map_cons, List.flatten_cons, List.length_cons,
      GrvResult.mk.injEq]
    refine ⟨by simp [List.append_assoc], trivial, by omega⟩

/-- C2: over a response sequence whose first pages are non-stopping (each
extracts successfully to a non-empty result other than `[[]]` and carries
an `after_key`) followed by a stopping page (extraction empty or `[[]]`),
the composite branch yields exactly the concatenation, in page order, of
the earlier pages' extracted values, yields nothing from the stopping
page, raises nothing, and issues exactly one search per consumed page —
the responses after the stopping page are never requested. -/
theorem get_response_value_composite_pagination
    (agg : String) (keys : List String) (front : List JSON) (stop : JSON)
    (rest : List JSON)
    (hfront : ∀ x ∈ front, goodPage agg keys x)
    (hstop : stopPage keys stop)
    (hhead : isOkE (afterKey ((front ++ stop :: rest).headD .null) agg) = true) :
    get_response_value_composite agg keys (front ++ stop :: rest)
      = ⟨(front.map (fun x => (recurse_splat_key x keys).1)).flatten, none,
         front.length + 1⟩ := by
  cases front with
  | nil =>
    simp only [List.nil_append, List.headD_cons] at hhead ⊢
    rcases (isOkE_iff _).mp hhead with ⟨v, hv⟩
    simp [get_response_value_composite, hv,
      grvLoop_stop agg keys rest stop hstop]
  | cons f front2 =>
    have hf := hfront f (by simp)
    have hfront2 : ∀ x ∈ front2, goodPage agg keys x :=
      fun x hx => hfront x (by simp [hx])
    rcases (isOkE_iff _).mp hf.2.2.2 with ⟨v, hv⟩
    rw [List.cons_append]
    simp only [get_response_value_composite, hv]
    rw [grvLoop_chain agg keys front2 f stop rest hf hfront2]
    rw [grvLoop_stop agg keys rest stop hstop]
    simp only [List.map_cons, List.flatten_cons, List.length_cons,
      GrvResult.mk.injEq]
    refine ⟨by simp, trivial, by omega⟩

/-- C2 witness: one full page of two bucket values followed by a page with
an empty bucket list; two searches are issued, the third scripted response
is never requested. -/
theorem get_response_value_composite_pagination_witness :
    get_response_value_composite "c" ["aggregations", "c", "buckets", "*"]
      [JSON.obj [("aggregations", .obj [("c", .obj [("after_key", .num 1),
          ("buckets", .arr [.num 10, .num 11])])])],
       JSON.obj [("aggregations", .obj [("c", .obj [("after_key", .num 2),
          ("buckets", .arr [])])])],
       JSON.obj [("never", .null)]]
      = ⟨[.num 10, .num 11], none, 2⟩ :=
  get_response_value_composite_pagination "c" ["aggregations", "c", "buckets", "*"]
    [JSON.obj [("aggregations", .obj [("c", .obj [("after_key", .num 1),
        ("buckets", .arr [.num 10, .num 11])])])]]
    (JSON.obj [("aggregations", .obj [("c", .obj [("after_key", .num 2),
        ("buckets", .arr [])])])])
    [JSON.obj [("never", .null)]]
    (by decide) (by decide) (by decide)

/-- C10: when a page after the first extracts a non-empty result (other
than `[[]]`) but lacks an `after_key`, the composite branch yields that
page's values and then raises the plain `keyError` of the bare subscript
chain — not the descriptive `missingContinuationCursor` failure reserved
for the first page. -/
theorem get_response_value_composite_midstream_key_error
    (agg : String) (keys : List String) (front : List JSON) (bad : JSON)
    (rest : List JSON) (ext : List JSON)
    (hne : front ≠ [])
    (hfront : ∀ x ∈ front, goodPage agg keys x)
    (hbad1 : recurse_splat_key bad keys = (ext, none))
    (hbad2 : ext ≠ []) (hbad3 : ext ≠ [JSON.arr []])
    (hbad4 : afterKey bad agg = .error .keyError) :
    get_response_value_composite agg keys (front ++ bad :: rest)
      = ⟨(front.map (fun x => (recurse_splat_key x keys).1)).flatten ++ ext,
         some .keyError, front.length + 1⟩ ∧
    PyErr.keyError ≠ PyErr.missingContinuationCursor := by
  refine ⟨?_, by decide⟩
  cases front with
  | nil => exact absurd rfl hne
  | cons f front2 =>
    have hf := hfront f (by simp)
    have hfront2 : ∀ x ∈ front2, goodPage agg keys x :=
      fun x hx => hfront x (by simp [hx])
    rcases (isOkE_iff _).mp hf.2.2.2 with ⟨v, hv⟩
    rw [List.cons_append]
    simp only [get_response_value_composite, hv]
    rw [grvLoop_chain agg keys front2 f bad rest hf hfront2]
    rw [grvLoop_bad agg keys rest bad ext .keyError hbad1 hbad2 hbad3 hbad4]
    simp only [List.map_cons, List.flatten_cons, List.length_cons,
      GrvResult.mk.injEq]
    refine ⟨by simp [List.append_assoc], trivial, by omega⟩

/-- `d.update(key=v)` leaves `key` bound to `v`. -/
theorem alookup_updateKey_self (d : Doc) (key : String) (v : JSON) :
    alookup key (updateKey key v d) = some v := by
  induction d with
  | nil => simp [updateKey, alookup]
  | cons kw rest ih =>
    obtain ⟨k1, w⟩ := kw
    by_cases hk : k1 = key
    · simp [updateKey, alookup, hk]
    · simp [updateKey, alookup, hk, ih]

/-- `d.update(key=v)` leaves every other key's binding unchanged. -/
theorem alookup_updateKey_other (d : Doc) (key k2 : String) (v : JSON)
    (h : key ≠ k2) : alookup k2 (updateKey key v d) = alookup k2 d := by
  induction d with
  | nil => simp [updateKey, alookup, h]
  | cons kw rest ih =>
    obtain ⟨k1, w⟩ := kw
    by_cases hk : k1 = key
    · subst hk
      simp [updateKey, alookup, h, ih]
    · simp [updateKey, alookup, hk, ih]

/-- Reading an address below the original length through an appended store
is reading the original store. -/
theorem fetch_append_left (store l : List Doc) (a : Nat) (h : a < store.length) :
    fetch (store ++ l) a = fetch store a := by
  simp only [fetch, List.getD_eq_getElem?_getD]
  rw [List.getElem?_append_left h]

/-- Writing one cell does not change reads of other cells. -/
theorem fetch_set_ne (store : List Doc) (m a : Nat) (x : Doc) (h : m ≠ a) :
    fetch (store.set m x) a = fetch store a := by
  simp only [fetch, List.getD_eq_getElem?_getD]
  rw [List.getElem?_set_ne h]

/-- `doc_genS` never writes to a pre-existing store cell, and its outputs
decode, in order, to the admitted input documents tagged with `_index`. -/
theorem doc_genS_spec (index : String) (ui : Bool) (ex : Doc → Bool) :
    ∀ (docs : List Nat) (store : List Doc),
      (∀ a ∈ docs, a < store.length) →
      (∀ j, j < store.length →
        (doc_genS index ui ex store docs).2[j]? = store[j]?) ∧
      ((doc_genS index ui ex store docs).1.map
          (fetch (doc_genS index ui ex store docs).2))
        = ((docs.map (fetch store)).filter (admitGate ui ex)).map
            (updateKey "_index" (.str index)) := by
  intro docs
  induction docs with
  | nil =>
    intro store _
    exact ⟨fun j _ => rfl, by simp [doc_genS]⟩
  | cons a rest ih =>
    intro store haddr
    have ha : a < store.length := haddr a (by simp)
    have haddr2 : ∀ b ∈ rest, b < store.length := fun b hb => haddr b (by simp [hb])
    by_cases hskip : (ui && ex (fetch store a)) = true
    · have hgate : admitGate ui ex (fetch store a) = false := by
        simp [admitGate, hskip]
      have step : doc_genS index ui ex store (a :: rest)
          = doc_genS index ui ex (store ++ [fetch store a]) rest := by
        rw [doc_genS.eq_2, if_pos hskip]
      have hlen : (store ++ [fetch store a]).length = store.length + 1 := by simp
      have IH := ih (store ++ [fetch store a])
        (fun b hb => by rw [hlen]; exact Nat.lt_succ_of_lt (haddr2 b hb))
      refine ⟨?_, ?_⟩
      · intro j hj
        rw [step, IH.1 j (by rw [hlen]; exact Nat.lt_succ_of_lt hj)]
        exact List.getElem?_append_left hj
      · rw [step, IH.2]
        have hmap : rest.map (fetch (store ++ [fetch store a])) = rest.map (fetch store) :=
          List.map_congr_left (fun b hb => fetch_append_left store _ b (haddr2 b hb))
        rw [hmap, List.map_cons, List.filter_cons, hgate, if_neg (by decide)]
    · have hgate : admitGate ui ex (fetch store a) = true := by
        simp only [admitGate]
        revert hskip; cases (ui && ex (fetch store a)) <;> simp
      set store2 := (store ++ [fetch store a]).set store.length
        (updateKey "_index" (.str index) (fetch store a)) with hs2
      have step : doc_genS index ui ex store (a :: rest)
          = (store.length :: (doc_genS index ui ex store2 rest).1,
             (doc_genS index ui ex store2 rest).2) := by
        rw [doc_genS.eq_2, if_neg hskip, hs2]
      have hlen : store2.length = store.length + 1 := by simp [hs2]
      have IH := ih store2
        (fun b hb => by rw [hlen]; exact Nat.lt_succ_of_lt (haddr2 b hb))
      have hframe : ∀ j, j < store.length →
          (doc_genS index ui ex store2 rest).2[j]? = store[j]? := by
        intro j hj
        rw [IH.1 j (by rw [hlen]; exact Nat.lt_succ_of_lt hj), hs2,
          List.getElem?_set_ne (by omega), List.getElem?_append_left hj]
      refine ⟨?_, ?_⟩
      · intro j hj
        rw [step]
        exact hframe j hj
      · rw [step]
        have hfresh : fetch (doc_genS index ui ex store2 rest).2 store.length
            = updateKey "_index" (.str index) (fetch store a) := by
          show (doc_genS index ui ex store2 rest).2.getD store.length [] = _
          rw [List.getD_eq_getElem?_getD,
            IH.1 store.length (by rw [hlen]; exact Nat.lt_succ_self _), hs2,
            List.getElem?_set_eq_of_lt _ (by simp)]
          rfl
        have hmap : rest.map (fetch store2) = rest.map (fetch store) :=
          List.map_congr_left (fun b hb => by
            rw [hs2, fetch_set_ne _ _ _ _ (by have := haddr2 b hb; omega),
              fetch_append_left store _ b (haddr2 b hb)])
        rw [List.map_cons, hfresh, IH.2, hmap, List.map_cons, List.filter_cons,
          hgate, if_pos rfl, List.map_cons]

/-- C8: every document admitted by `doc_gen` is yielded as the copy of the
input document tagged in place with the marker field `_index` bound to the
destination index name — the yields are, in order, exactly the admitted
input documents so tagged; tagging binds `_index` to the index name and
leaves every other field's binding unchanged; and no pre-existing store
cell — in particular no caller-owned input document — is ever written. -/
theorem doc_gen_tags_admitted_copies (index : String) (ui : Bool)
    (ex : Doc → Bool) (docs : List Nat) (store : List Doc)
    (haddr : ∀ a ∈ docs, a < store.length) :
    (∀ j, j < store.length →
      (doc_genS index ui ex store docs).2[j]? = store[j]?) ∧
    ((doc_genS index ui ex store docs).1.map
        (fetch (doc_genS index ui ex store docs).2))
      = ((docs.map (fetch store)).filter (admitGate ui ex)).map
          (updateKey "_index" (.str index)) ∧
    (∀ d : Doc, alookup "_index" (updateKey "_index" (.str index) d)
      = some (.str index)) ∧
    (∀ (d : Doc) (k : String), k ≠ "_index" →
      alookup k (updateKey "_index" (.str index) d) = alookup k d) :=
  ⟨(doc_genS_spec index ui ex docs store haddr).1,
   (doc_genS_spec index ui ex docs store haddr).2,
   fun d => alookup_updateKey_self d "_index" (.str index),
   fun d k hk => alookup_updateKey_other d "_index" k (.str index) (Ne.symm hk)⟩

/-- C8 witness: a store holding one single-field document, admitted by an
oracle that reports no duplicates. -/
theorem doc_gen_tags_admitted_copies_witness :
    (∀ j, j < 1 →
      (doc_genS "idx" false (fun _ => false) [[("a", JSON.num 1)]] [0]).2[j]?
        = [[("a", JSON.num 1)]][j]?) ∧
    ((doc_genS "idx" false (fun _ => false) [[("a", JSON.num 1)]] [0]).1.map
        (fetch (doc_genS "idx" false (fun _ => false) [[("a", JSON.num 1)]] [0]).2))
      = (([0].map (fetch [[("a", JSON.num 1)]])).filter
          (admitGate false (fun _ => false))).map
          (updateKey "_index" (.str "idx")) ∧
    (∀ d : Doc, alookup "_index" (updateKey "_index" (.str "idx") d)
      = some (.str "idx")) ∧
    (∀ (d : Doc) (k : String), k ≠ "_index" →
      alookup k (updateKey "_index" (.str "idx") d) = alookup k d) :=
  doc_gen_tags_admitted_copies "idx" false (fun _ => false)
    [0] [[("a", JSON.num 1)]] (by decide)

/-- C10 witness: a good first page, then a page with one bucket value but
no `after_key`: its value is yielded and a plain `keyError` follows. -/
theorem get_response_value_composite_midstream_key_error_witness :
    get_response_value_composite "c" ["aggregations", "c", "buckets", "*"]
      [JSON.obj [("aggregations", .obj [("c", .obj [("after_key", .num 1),
          ("buckets", .arr [.num 10])])])],
       JSON.obj [("aggregations", .obj [("c", .obj [("buckets", .arr [.num 12])])])]]
      = ⟨[.num 10, .num 12], some .keyError, 2⟩ ∧
    PyErr.keyError ≠ PyErr.missingContinuationCursor :=
  get_response_value_composite_midstream_key_error "c"
    ["aggregations", "c", "buckets", "*"]
    [JSON.obj [("aggregations", .obj [("c", .obj [("after_key", .num 1),
        ("buckets", .arr [.num 10])])])]]
    (JSON.obj [("aggregations", .obj [("c", .obj [("buckets", .arr [.num 12])])])])
    [] [JSON.num 12]
    (by decide) (by decide) (by decide) (by decide) (by decide) (by decide)


/-- A node decoding to a string is stored as exactly that string node. -/
theorem decodes_str_iff {h : Heap} {a : Nat} {t : JSON} (hd : Decodes h a t)
    (key : String) : h[a]? = some (.str key) ↔ t = .str key := by
  cases hd <;> simp_all

/-- Python `key in data` over the heap agrees with membership in the
decoded list. -/
theorem any_str_iff {h : Heap} {addrs : List Nat} {ts : List JSON}
    (hf : List.Forall₂ (Decodes h) addrs ts) (key : String) :
    ((addrs.any (fun a2 => h[a2]? == some (.str key))) = true ↔
      JSON.str key ∈ ts) := by
  induction hf with
  | nil => simp
  | cons hat hrest ihm =>
    simp only [List.any_cons, List.mem_cons, Bool.or_eq_true, ihm]
    constructor
    · rintro (h1 | h1)
      · exact Or.inl ((decodes_str_iff hat key).mp (by simpa using h1)).symm
      · exact Or.inr h1
    · rintro (h1 | h1)
      · exact Or.inl (by simpa using (decodes_str_iff hat key).mpr h1.symm)
      · exact Or.inr h1

/-- Dict lookup over the heap agrees with lookup in the decoded object:
either both miss, or both hit with a decoding pair. -/
theorem alookup_decodes {h : Heap} :
    ∀ (fields : List (String × Nat)) (kts : List (String × JSON)),
      fields.map Prod.fst = kts.map Prod.fst →
      List.Forall₂ (Decodes h) (fields.map Prod.snd) (kts.map Prod.snd) →
      ∀ key : String,
        (alookup key fields = none ∧ alookup key kts = none) ∨
        (∃ a2 v, alookup key fields = some a2 ∧ alookup key kts = some v ∧
          Decodes h a2 v) := by
  intro fields
  induction fields with
  | nil =>
    intro kts hk _ key
    cases kts with
    | nil => exact Or.inl ⟨rfl, rfl⟩
    | cons kt kts2 => simp at hk
  | cons f fs ihf =>
    intro kts hk hv key
    cases kts with
    | nil => simp at hk
    | cons kt kts2 =>
      obtain ⟨k1, a1⟩ := f
      obtain ⟨k2, v1⟩ := kt
      simp only [List.map_cons] at hk hv
      injection hk with hk1 hk2
      rw [List.forall₂_cons] at hv
      obtain ⟨hd1, hv2⟩ := hv
      subst hk1
      by_cases hkey : k1 = key
      · exact Or.inr ⟨a1, v1, by simp [alookup, hkey], by simp [alookup, hkey], hd1⟩
      · rcases ihf kts2 hk2 hv2 key with ⟨hn1, hn2⟩ | ⟨a2, v2, hs1, hs2, hd2⟩
        · exact Or.inl ⟨by simp [alookup, hkey, hn1], by simp [alookup, hkey, hn2]⟩
        · exact Or.inr ⟨a2, v2, by simp [alookup, hkey, hs1],
            by simp [alookup, hkey, hs2], hd2⟩

/-- Sequencing after a run that raised: the exception is kept. -/
theorem genConcat_cons_err (x : List JSON × Option PyErr)
    (l : List (List JSON × Option PyErr)) (e : PyErr) (hx : x.2 = some e) :
    genConcat (x :: l) = (x.1, some e) := by
  obtain ⟨vs, err⟩ := x
  have h2 : err = some e := hx
  subst h2
  rfl

/-- Sequencing after a clean run: its values are prepended. -/
theorem genConcat_cons_ok (x : List JSON × Option PyErr)
    (l : List (List JSON × Option PyErr)) (hx : x.2 = none) :
    genConcat (x :: l) = (x.1 ++ (genConcat l).1, (genConcat l).2) := by
  obtain ⟨vs, err⟩ := x
  have h2 : err = none := hx
  subst h2
  rfl

/-- Once an exception is recorded, the wildcard loop is a no-op. -/
theorem foldl_rskHStep_err (g : Heap → Nat → (List Nat × Option PyErr) × Heap) :
    ∀ (l : List Nat) (vs : List Nat) (e : PyErr) (h2 : Heap),
      l.foldl (rskHStep g) ((vs, some e), h2) = ((vs, some e), h2) := by
  intro l
  induction l with
  | nil => intro vs e h2; rfl
  | cons b l2 ihl => intro vs e h2; rw [List.foldl_cons]; exact ihl vs e h2

/-- The heap-level wildcard loop over addresses decoding to `ts`, driven
by an element extractor `g` that preserves the heap and agrees with the
pure extractor `g2`, preserves the heap and produces addresses decoding to
the sequenced pure run over `ts`. -/
theorem foldl_rskHStep_pure (g : Heap → Nat → (List Nat × Option PyErr) × Heap)
    (g2 : JSON → List JSON × Option PyErr) (h : Heap)
    (hg : ∀ (a : Nat) (t : JSON), Decodes h a t →
      (g h a).2 = h ∧ (g h a).1.2 = (g2 t).2 ∧
      List.Forall₂ (Decodes h) (g h a).1.1 (g2 t).1) :
    ∀ {addrs : List Nat} {ts : List JSON},
      List.Forall₂ (Decodes h) addrs ts → ∀ (vs0 : List Nat),
      ∃ ys, addrs.foldl (rskHStep g) ((vs0, none), h)
          = ((vs0 ++ ys, (genConcat (ts.map g2)).2), h) ∧
        List.Forall₂ (Decodes h) ys (genConcat (ts.map g2)).1 := by
  intro addrs ts hf
  induction hf with
  | nil =>
    intro vs0
    exact ⟨[], by simp [genConcat], List.Forall₂.nil⟩
  | @cons a t addrs2 ts2 hat hrest ihf =>
    intro vs0
    obtain ⟨hg1, hg2, hg3⟩ := hg a t hat
    rw [List.foldl_cons]
    have hstep : rskHStep g ((vs0, none), h) a
        = ((vs0 ++ (g h a).1.1, (g h a).1.2), (g h a).2) := by
      simp only [rskHStep]
    rw [hstep, hg1, hg2]
    cases he : (g2 t).2 with
    | some e =>
      rw [foldl_rskHStep_err]
      refine ⟨(g h a).1.1, ?_, ?_⟩
      · rw [List.map_cons, genConcat_cons_err (g2 t) (ts2.map g2) e he]
      · rw [List.map_cons, genConcat_cons_err (g2 t) (ts2.map g2) e he]
        exact hg3
    | none =>
      obtain ⟨ys2, hy1, hy2⟩ := ihf (vs0 ++ (g h a).1.1)
      refine ⟨(g h a).1.1 ++ ys2, ?_, ?_⟩
      · rw [hy1, List.map_cons, genConcat_cons_ok (g2 t) (ts2.map g2) he,
          List.append_assoc]
      · rw [List.map_cons, genConcat_cons_ok (g2 t) (ts2.map g2) he]
        exact List.rel_append hg3 hy2

/-- C5: the extractor run over an explicit heap returns the heap it was
given — whether it yields or raises, it performs no store — and its
outcome depends only on the decoded tree: the raised exception equals the
pure `recurse_splat_key`'s on the decoded tree, and the yielded addresses
decode, in order, to the pure extractor's yielded values. -/
theorem recurse_splat_key_pure (keys : List String) :
    ∀ (h : Heap) (a : Nat) (t : JSON), Decodes h a t →
      (rskH keys h a).2 = h ∧
      (rskH keys h a).1.2 = (recurse_splat_key t keys).2 ∧
      List.Forall₂ (Decodes h) (rskH keys h a).1.1 (recurse_splat_key t keys).1 := by
  induction keys with
  | nil =>
    intro h a t _
    exact ⟨rfl, rfl, List.Forall₂.nil⟩
  | cons key rest ih =>
    intro h a t hd
    cases hd with
    | null hget =>
      by_cases hk : key = "*" <;>
        refine ⟨?_, ?_, ?_⟩ <;>
          simp [rskH, recurse_splat_key, hget, hk, List.forall₂_nil_left_iff]
    | bool hget =>
      by_cases hk : key = "*" <;>
        refine ⟨?_, ?_, ?_⟩ <;>
          simp [rskH, recurse_splat_key, hget, hk, List.forall₂_nil_left_iff]
    | num hget =>
      by_cases hk : key = "*" <;>
        refine ⟨?_, ?_, ?_⟩ <;>
          simp [rskH, recurse_splat_key, hget, hk, List.forall₂_nil_left_iff]
    | str hget =>
      by_cases hk : key = "*" <;>
        refine ⟨?_, ?_, ?_⟩ <;>
          simp [rskH, recurse_splat_key, hget, hk, List.forall₂_nil_left_iff]
    | arr hget hf =>
      rename_i addrs ts
      by_cases hk : key = "*"
      · subst hk
        by_cases hr : rest = []
        · subst hr
          refine ⟨by simp [rskH, hget], by simp [rskH, recurse_splat_key, hget], ?_⟩
          simpa [rskH, recurse_splat_key, hget] using hf
        · obtain ⟨ys, hy1, hy2⟩ := foldl_rskHStep_pure
            (fun h2 a2 => rskH rest h2 a2) (fun d => recurse_splat_key d rest) h
            (fun a2 t2 hd2 => ih h a2 t2 hd2) hf []
          have hun : rskH ("*" :: rest) h a
              = addrs.foldl (rskHStep (fun h2 a2 => rskH rest h2 a2)) (([], none), h) := by
            simp [rskH, hget, hr]
          have hun2 : recurse_splat_key (.arr ts) ("*" :: rest)
              = genConcat (ts.map (fun d => recurse_splat_key d rest)) := by
            simp [recurse_splat_key, hr]
          refine ⟨?_, ?_, ?_⟩
          · rw [hun, hy1]
          · rw [hun, hy1, hun2]
          · rw [hun, hy1, hun2]
            simpa using hy2
      · refine ⟨?_, ?_, ?_⟩
        · simp [rskH, hget, hk]
        · by_cases hm : JSON.str key ∈ ts
          · have hany : (addrs.any (fun a2 => h[a2]? == some (.str key))) = true :=
              (any_str_iff hf key).mpr hm
            simp [rskH, recurse_splat_key, hget, hk, hany, hm]
          · have hany : (addrs.any (fun a2 => h[a2]? == some (.str key))) = false := by
              cases hx : addrs.any (fun a2 => h[a2]? == some (.str key)) with
              | false => rfl
              | true => exact absurd ((any_str_iff hf key).mp hx) hm
            simp [rskH, recurse_splat_key, hget, hk, hany, hm]
        · simp [rskH, recurse_splat_key, hget, hk, List.forall₂_nil_left_iff]
    | obj hget hkeys hvals =>
      rename_i fields kts
      by_cases hk : key = "*"
      · refine ⟨?_, ?_, ?_⟩ <;>
          simp [rskH, recurse_splat_key, hget, hk, List.forall₂_nil_left_iff]
      · rcases alookup_decodes fields kts hkeys hvals key with
          ⟨hn1, hn2⟩ | ⟨a2, v, hs1, hs2, hd2⟩
        · refine ⟨?_, ?_, ?_⟩ <;>
            simp [rskH, recurse_splat_key, hget, hk, hn1, hn2,
              List.forall₂_nil_left_iff]
        · by_cases hr : rest = []
          · subst hr
            refine ⟨by simp [rskH, hget, hk, hs1],
              by simp [rskH, recurse_splat_key, hget, hk, hs1, hs2], ?_⟩
            simpa [rskH, recurse_splat_key, hget, hk, hs1, hs2,
              List.forall₂_cons, List.forall₂_nil_left_iff] using hd2
          · obtain ⟨ih1, ih2, ih3⟩ := ih h a2 v hd2
            have hun : rskH (key :: rest) h a = rskH rest h a2 := by
              simp [rskH, hget, hk, hs1, hr]
            have hun2 : recurse_splat_key (.obj kts) (key :: rest)
                = recurse_splat_key v rest := by
              simp [recurse_splat_key, hk, hs2, hr]
            exact ⟨by rw [hun]; exact ih1, by rw [hun, hun2]; exact ih2,
              by rw [hun, hun2]; exact ih3⟩

/-- C5 witness: a three-cell heap whose root is a two-element array; the
run returns the heap unchanged and its yields decode to the pure run's. -/
theorem recurse_splat_key_pure_witness :
    (rskH ["*"] [HNode.arr [1, 2], HNode.num 5, HNode.str "x"] 0).2
        = [HNode.arr [1, 2], HNode.num 5, HNode.str "x"] ∧
    (rskH ["*"] [HNode.arr [1, 2], HNode.num 5, HNode.str "x"] 0).1.2
        = (recurse_splat_key (.arr [.num 5, .str "x"]) ["*"]).2 ∧
    List.Forall₂ (Decodes [HNode.arr [1, 2], HNode.num 5, HNode.str "x"])
      (rskH ["*"] [HNode.arr [1, 2], HNode.num 5, HNode.str "x"] 0).1.1
      (recurse_splat_key (.arr [.num 5, .str "x"]) ["*"]).1 :=
  recurse_splat_key_pure ["*"] [HNode.arr [1, 2], HNode.num 5, HNode.str "x"] 0
    (.arr [.num 5, .str "x"])
    (Decodes.arr rfl (List.Forall₂.cons (Decodes.num rfl)
      (List.Forall₂.cons (Decodes.str rfl) List.Forall₂.nil)))

end Elasticbud
